import Mathlib

/-!
Shallow embedding of the `pg` job-lock component of the elephantine
repository: the `JobLock` state machine (`NewJobLock`, `ping`, `acquire`,
`steal`, `attemptAcquire`, `loop`, `Stop`, `RunWithContext`) and the SQL
store operations it issues (`InsertJobLock`, `PingJobLock`, `StealJobLock`,
`ReleaseJobLock`).

Modelling conventions:
- wall-clock instants and durations are `Nat` (milliseconds; the Go code
  uses `time.Duration` / `time.Time`, e.g. `10 * time.Second` = 10000);
- `time.Since(t)` at instant `now` is `now - t`;
- the store rows for one lock `name` are an `Option JobLockRow`
  (the primary key on `name` allows at most one row per name);
- transport-level failures of the store (network errors, timeouts) are
  injected through explicit environment records, since they are decided
  by the external database, not by this code;
- Go channels and goroutine interleavings are modelled by explicit event
  lists fed to the corresponding step functions.
-/

namespace Elephantine.PG

/-- Client-local lock state, from the `JobLockState` constants. -/
inductive JobLockState where
  | stateNone
  | held
  | lost
  | released
deriving DecidableEq, Repr

/-- `JobLockOptions` from the source: the four duration knobs. -/
structure JobLockOptions where
  pingInterval : Nat
  staleAfter : Nat
  checkInterval : Nat
  timeout : Nat
deriving DecidableEq, Repr

/-- The configuration a successfully constructed `JobLock` carries. -/
structure JobLockConfig where
  pingInterval : Nat
  staleAfter : Nat
  checkInterval : Nat
  timeout : Nat
deriving DecidableEq, Repr

/-- The defaulting pass at the top of `NewJobLock`: each zero-valued
option is replaced, in order, by its default (ping interval 10s;
stale-after 4x ping interval; check interval 2x ping interval; timeout
ping interval / 2). -/
def withDefaults (opts : JobLockOptions) : JobLockOptions :=
  let pingInterval := if opts.pingInterval = 0 then 10000 else opts.pingInterval
  let staleAfter := if opts.staleAfter = 0 then pingInterval * 4 else opts.staleAfter
  let checkInterval := if opts.checkInterval = 0 then pingInterval * 2 else opts.checkInterval
  let timeout := if opts.timeout = 0 then pingInterval / 2 else opts.timeout
  ⟨pingInterval, staleAfter, checkInterval, timeout⟩

/-- `NewJobLock`: apply defaults, then validate
`pingInterval >= staleAfter` and `timeout >= pingInterval` as errors,
otherwise return the configured lock. -/
def NewJobLock (opts : JobLockOptions) : Except String JobLockConfig :=
  let o := withDefaults opts
  if o.pingInterval ≥ o.staleAfter then
    .error "the ping interval must be shorter than stale after"
  else if o.timeout ≥ o.pingInterval then
    .error "the timeout must be shorter than the ping interval"
  else
    .ok ⟨o.pingInterval, o.staleAfter, o.checkInterval, o.timeout⟩

/-- A row of the `job_lock` table (for one fixed `name`). -/
structure JobLockRow where
  holder : String
  touched : Nat
  iteration : Int
deriving DecidableEq, Repr

/-- The `job_lock` rows for one fixed `name`: at most one row, by the
primary key `job_lock_pkey` on `name`. -/
abbrev JobLockTable := Option JobLockRow

/-- Result of the `InsertJobLock` statement. -/
inductive InsertResult where
  | inserted (iteration : Int)
  | uniqueViolation
deriving DecidableEq, Repr

/-- `InsertJobLock`: `INSERT INTO job_lock(name, holder, touched, iteration)
VALUES (@name, @holder, now(), 1) RETURNING iteration`.  Conflicts with
`job_lock_pkey` when a row for the name already exists. -/
def InsertJobLock (tbl : JobLockTable) (holder : String) (now : Nat) :
    JobLockTable × InsertResult :=
  match tbl with
  | Option.none => (some ⟨holder, now, 1⟩, .inserted 1)
  | some r => (some r, .uniqueViolation)

/-- `PingJobLock`: `UPDATE job_lock SET touched = now(), iteration =
iteration + 1 WHERE name = @name AND holder = @holder AND iteration =
@iteration`; returns the affected-row count. -/
def PingJobLock (tbl : JobLockTable) (holder : String) (iteration : Int)
    (now : Nat) : JobLockTable × Nat :=
  match tbl with
  | some r =>
      if r.holder = holder ∧ r.iteration = iteration then
        (some { r with touched := now, iteration := r.iteration + 1 }, 1)
      else
        (some r, 0)
  | Option.none => (Option.none, 0)

/-- `StealJobLock`: `UPDATE job_lock SET holder = @new_holder, touched =
now(), iteration = iteration + 1 WHERE name = @name AND holder =
@previous_holder AND iteration = @iteration`; returns the affected-row
count. -/
def StealJobLock (tbl : JobLockTable) (newHolder previousHolder : String)
    (iteration : Int) (now : Nat) : JobLockTable × Nat :=
  match tbl with
  | some r =>
      if r.holder = previousHolder ∧ r.iteration = iteration then
        (some ⟨newHolder, now, r.iteration + 1⟩, 1)
      else
        (some r, 0)
  | Option.none => (Option.none, 0)

/-- `ReleaseJobLock`: `DELETE FROM job_lock WHERE name = @name AND holder
= @holder`; returns the affected-row count. -/
def ReleaseJobLock (tbl : JobLockTable) (holder : String) :
    JobLockTable × Nat :=
  match tbl with
  | some r => if r.holder = holder then (Option.none, 1) else (some r, 0)
  | Option.none => (Option.none, 0)

/-- The fields of `JobLock` that the `ping` method mutates. -/
structure PingFields where
  lastPing : Nat
  iteration : Int
deriving DecidableEq, Repr

/-- Outcome of the `PingJobLock` store round trip as seen by `ping`:
either a transport/store error, or the affected-row count. -/
inductive PingOutcome where
  | storeError
  | updated (rows : Nat)
deriving DecidableEq, Repr

/-- The `ping` method: on a store error, stay `held` unless the time
since the last successful ping exceeds `staleAfter` (then `lost`); on
zero affected rows, `lost`; otherwise increment the iteration, refresh
`lastPing`, and stay `held`. -/
def ping (jl : PingFields) (outcome : PingOutcome) (now : Nat)
    (staleAfter : Nat) : PingFields × JobLockState :=
  match outcome with
  | .storeError =>
      if now - jl.lastPing > staleAfter then (jl, .lost) else (jl, .held)
  | .updated 0 => (jl, .lost)
  | .updated (_ + 1) =>
      ({ jl with iteration := jl.iteration + 1, lastPing := now }, .held)

/-- Go's `acquireChange` struct (zero value: `Ok = false`, `Ping` and
`Iteration` zero). -/
structure AcquireChange where
  Ok : Bool
  Ping : Nat
  Iteration : Int
deriving DecidableEq, Repr

/-- The error cases `acquire` and `steal` can return. -/
inductive AcquireError where
  | readFailed
  | insertFailed
  | stealFailed
  | outOfSync
deriving DecidableEq, Repr

/-- Transport-level store failures injected by the environment during
one `acquire` transaction: a non-`ErrNoRows` error from `GetJobLock`, a
non-constraint error or a lost `job_lock_pkey` race on `InsertJobLock`
(the race happens when a concurrent transaction inserts between our read
and our insert), and an error from `StealJobLock`. -/
structure AcquireEnv where
  getError : Bool
  insertError : Bool
  insertRace : Bool
  stealError : Bool
deriving DecidableEq, Repr

/-- The injection-free environment (healthy store, no concurrent racer). -/
def AcquireEnv.quiet : AcquireEnv := ⟨false, false, false, false⟩

/-- The `steal` method: attempt the guarded `StealJobLock` update using
the holder and iteration observed by the preceding read; a store error
is returned as such, zero affected rows becomes the explicit
`outOfSync` error, and success reports the lock acquired with the
observed iteration plus one. -/
def steal (identity : String) (tbl : JobLockTable) (state : JobLockRow)
    (now : Nat) (stealError : Bool) :
    JobLockTable × Except AcquireError AcquireChange :=
  if stealError then (tbl, .error .stealFailed)
  else
    match StealJobLock tbl identity state.holder state.iteration now with
    | (tbl2, affected) =>
        if affected = 0 then (tbl2, .error .outOfSync)
        else (tbl2, .ok ⟨true, now, state.iteration + 1⟩)

/-- The `acquire` method, run inside one transaction: read the row with
`GetJobLock` (`Option.none` plays `pgx.ErrNoRows`); if a row exists and
`now - touched < staleAfter` the lock is fresh, report not acquired; if
a row exists and is stale, try to `steal` it; if no row exists, insert
one (a lost `job_lock_pkey` race reports not acquired, not an error). -/
def acquire (identity : String) (staleAfter : Nat) (tbl : JobLockTable)
    (now : Nat) (env : AcquireEnv) :
    JobLockTable × Except AcquireError AcquireChange :=
  if env.getError then (tbl, .error .readFailed)
  else
    match tbl with
    | some state =>
        if now - state.touched < staleAfter then (tbl, .ok ⟨false, 0, 0⟩)
        else steal identity tbl state now env.stealError
    | Option.none =>
        if env.insertRace then (tbl, .ok ⟨false, 0, 0⟩)
        else if env.insertError then (tbl, .error .insertFailed)
        else
          match InsertJobLock tbl identity now with
          | (tbl2, .inserted iter) => (tbl2, .ok ⟨true, now, iter⟩)
          | (tbl2, .uniqueViolation) => (tbl2, .ok ⟨false, 0, 0⟩)

/-- Transaction-level failures around one `attemptAcquire`. -/
structure TxEnv where
  beginError : Bool
  commitError : Bool
deriving DecidableEq, Repr

/-- `attemptAcquire`: open a transaction, run `acquire`, commit only on a
successful acquisition.  Any error (begin, acquire, commit) is logged
and mapped to the zero `acquireChange` (not acquired), and the
transaction is rolled back, leaving the store unchanged. -/
def attemptAcquire (identity : String) (staleAfter : Nat)
    (tbl : JobLockTable) (now : Nat) (env : AcquireEnv) (tx : TxEnv) :
    JobLockTable × AcquireChange :=
  if tx.beginError then (tbl, ⟨false, 0, 0⟩)
  else
    match acquire identity staleAfter tbl now env with
    | (_, .error _) => (tbl, ⟨false, 0, 0⟩)
    | (tbl2, .ok change) =>
        if !change.Ok then (tbl, ⟨false, 0, 0⟩)
        else if tx.commitError then (tbl, ⟨false, 0, 0⟩)
        else (tbl2, change)

/-- The kinds of store round trips a lock instance issues. -/
inductive StoreOp where
  | acquireAttempt
  | pingAttempt
  | releaseDelete
deriving DecidableEq, Repr

/-- The mutable fields of `JobLock` the `loop` works with, plus the
`nextState` local that lives outside the `for` loop. -/
structure LoopState where
  state : JobLockState
  nextState : JobLockState
  lastPing : Nat
  iteration : Int
deriving DecidableEq, Repr

/-- The environment of one `loop` iteration: the current instant, the
outcome the store would give an acquisition attempt, the outcome it
would give a ping, whether the consumer has drained the `out` channel
(capacity one), and whether `abort` has been closed when the final
`select` runs. -/
structure LoopEnv where
  now : Nat
  acquireOutcome : AcquireChange
  pingOutcome : PingOutcome
  channelFree : Bool
  abortSignalled : Bool
deriving DecidableEq, Repr

/-- Why the `loop` returned. -/
inductive LoopExit where
  | releasedState
  | channelFull
  | lostState
  | aborted
deriving DecidableEq, Repr

/-- What one `loop` iteration did: store round trips, error-level log
lines, states successfully sent on `out`, and either the state to carry
into the next iteration or an exit with the state at return time. -/
structure IterResult where
  ops : List StoreOp
  logs : List String
  sends : List JobLockState
  next : Except (LoopExit × LoopState) LoopState
deriving Repr

/-- The tail of a `loop` iteration after the state-change offer: return
when `lost`, otherwise wait and return if `abort` was signalled. -/
def loopWait (s : LoopState) (env : LoopEnv) (ops : List StoreOp)
    (sends : List JobLockState) : IterResult :=
  match s.state with
  | .lost => ⟨ops, [], sends, .error (.lostState, s)⟩
  | _ =>
      if env.abortSignalled then ⟨ops, [], sends, .error (.aborted, s)⟩
      else ⟨ops, [], sends, .ok s⟩

/-- The head of a `loop` iteration: dispatch on the current state —
attempt an acquisition when `stateNone` (on success set `nextState` to
`held` and record the returned ping time and iteration), attempt a ping
when `held` and the ping interval has elapsed.  Returns the updated
state and the store round trips issued. -/
def loopDispatch (cfg : JobLockConfig) (s : LoopState) (env : LoopEnv) :
    LoopState × List StoreOp :=
  match s.state with
  | .stateNone =>
      let change := env.acquireOutcome
      if change.Ok then
        ({ s with nextState := JobLockState.held,
                  lastPing := change.Ping,
                  iteration := change.Iteration },
          [StoreOp.acquireAttempt])
      else (s, [StoreOp.acquireAttempt])
  | .held =>
      if env.now - s.lastPing > cfg.pingInterval then
        let (pf, st) :=
          ping ⟨s.lastPing, s.iteration⟩ env.pingOutcome env.now
            cfg.staleAfter
        ({ s with nextState := st, lastPing := pf.lastPing,
                  iteration := pf.iteration },
          [StoreOp.pingAttempt])
      else (s, [])
  | _ => (s, [])

/-- The notification step of a `loop` iteration: when the state changed,
set it and offer it once on the capacity-one `out` channel; a full
channel is logged at error level and is fatal — the iteration ends with
the `channelFull` exit, with no retry of the send. -/
def loopNotify (s1 : LoopState) (ops1 : List StoreOp) (env : LoopEnv) :
    IterResult :=
  if s1.nextState ≠ s1.state then
    if env.channelFree then
      loopWait { s1 with state := s1.nextState } env ops1 [s1.nextState]
    else
      ⟨ops1, ["state change channel buffer is full, aborting"], [],
        .error (.channelFull, { s1 with state := s1.nextState })⟩
  else
    loopWait s1 env ops1 []

/-- One iteration of the `loop` body: return at once when `released`,
otherwise dispatch, notify, and wait. -/
def loopIter (cfg : JobLockConfig) (s : LoopState) (env : LoopEnv) :
    IterResult :=
  match s.state with
  | .released => ⟨[], [], [], .error (.releasedState, s)⟩
  | _ =>
      let (s1, ops1) : LoopState × List StoreOp := loopDispatch cfg s env
      loopNotify s1 ops1 env

/-- The store round trips the deferred `release` issues: a single
`ReleaseJobLock` delete when the state at loop exit is `held`, nothing
otherwise. -/
def releaseStoreOps (state : JobLockState) : List StoreOp :=
  match state with
  | .held => [StoreOp.releaseDelete]
  | _ => []

/-- Run the `loop` against a finite schedule of iteration environments.
Returns all store round trips issued (the deferred `release` included),
all error-level log lines, and the exit reason (`Option.none` when the
schedule ran out with the loop still going). -/
def loopRun (cfg : JobLockConfig) :
    List LoopEnv → LoopState → List StoreOp × List String × Option LoopExit
  | [], _ => ([], [], Option.none)
  | env :: rest, s =>
      let r := loopIter cfg s env
      match r.next with
      | .error (ex, sEnd) =>
          (r.ops ++ releaseStoreOps sEnd.state, r.logs, some ex)
      | .ok s2 =>
          let (ops, logs, ex) := loopRun cfg rest s2
          (r.ops ++ ops, r.logs ++ logs, ex)

/-- The state of an unbuffered signalling channel such as `jl.abort`. -/
inductive ChanState where
  | opened
  | closedC
deriving DecidableEq, Repr

/-- Go's `close` builtin on a channel: closing an already-closed channel
is a run-time panic ("close of closed channel"). -/
def closeChan : ChanState → Except String ChanState
  | .opened => .ok .closedC
  | .closedC => .error "close of closed channel"

/-- The first statement of `Stop`: `close(jl.abort)`, unconditionally,
with no once-guard. -/
def StopClose (abort : ChanState) : Except String ChanState :=
  closeChan abort

/-- Two consecutive calls to `Stop` on the same `JobLock`: the second
`close(jl.abort)` runs on an already-closed channel. -/
def stopTwice : Except String ChanState :=
  StopClose ChanState.opened >>= StopClose

/-- The externally visible steps a lock method performs, used to compare
where the signalling and the bounded cleanup wait live. -/
inductive LockAction where
  | closeAbortChan
  | boundedWaitCleanup (timeout : Nat)
  | spawnWatcher
  | selectAcquireOrCancel
  | invokeFn
  | cancelScope
deriving DecidableEq, Repr

/-- The steps `Stop` performs, in order: `close(jl.abort)`, then a
`select` on `jl.cleanedUp` versus `time.After(jl.timeout)` — a wait for
the cleanup signal bounded by the configured timeout. -/
def StopActions (timeout : Nat) : List LockAction :=
  [.closeAbortChan, .boundedWaitCleanup timeout]

/-- The steps the calling goroutine of `RunWithContext` performs: derive
the scope, spawn the watcher goroutine, `select` on lock acquisition
versus cancellation, invoke the protected function if acquired, and run
the deferred `cancel()` before returning. -/
def RunWithContextMainActions (acquired : Bool) : List LockAction :=
  [.spawnWatcher, .selectAcquireOrCancel] ++
    (if acquired then [.invokeFn] else []) ++ [.cancelScope]

/-- The deferred steps of the watcher goroutine inside `RunWithContext`,
in execution (LIFO) order: `cancel()`, then `jl.Stop()` — which closes
`abort` and performs the bounded cleanup wait. -/
def watcherDeferredActions (timeout : Nat) : List LockAction :=
  [.cancelScope] ++ StopActions timeout

/-- An event the watcher goroutine of `RunWithContext` can observe in
its `select`: `abort` closed, a state received from `jl.out`, or the
derived scope done. -/
inductive RwcEvent where
  | abortClosed
  | stateMsg (s : JobLockState)
  | ctxDone
deriving DecidableEq, Repr

/-- What the watcher goroutine does with a serialized stream of observed
events: `some true` when it closed `acquiredLock` (a `held` state
arrived first), `some false` when it returned without acquiring
(`abort`, scope done, or a `lost`/`released` state arrived first),
`Option.none` when the stream ran out with the watcher still waiting.
A `stateNone` message is ignored and the loop continues. -/
def watcherOutcome : List RwcEvent → Option Bool
  | [] => Option.none
  | .abortClosed :: _ => some false
  | .ctxDone :: _ => some false
  | .stateMsg .held :: _ => some true
  | .stateMsg .stateNone :: rest => watcherOutcome rest
  | .stateMsg .lost :: _ => some false
  | .stateMsg .released :: _ => some false

/-- `RunWithContext` as a function of the watcher's event stream and the
protected function's result (`Option.none` plays a nil Go error): when
the watcher closes `acquiredLock` the protected function runs and its
result is returned; when the derived scope is cancelled first the
function is never invoked and nil is returned.  The outer `Option.none`
means the call is still blocked.  The second component records whether
the protected function was invoked. -/
def RunWithContext (events : List RwcEvent) (fnResult : Option String) :
    Option (Option String × Bool) :=
  match watcherOutcome events with
  | some true => some (fnResult, true)
  | some false => some (Option.none, false)
  | Option.none => Option.none

/-- One successful-or-failed store operation against the `job_lock` row
of a name: the three statements `InsertJobLock`, `PingJobLock`,
`StealJobLock` with the arguments their caller presents.  Each executes
atomically (the SQL statements are single conditional statements). -/
inductive LockOp where
  | insertOp (holder : String) (now : Nat)
  | pingOp (holder : String) (iteration : Int) (now : Nat)
  | stealOp (newHolder previousHolder : String) (iteration : Int) (now : Nat)
deriving DecidableEq, Repr

/-- Apply one store operation to the table, keeping only the resulting
table. -/
def applyLockOp (tbl : JobLockTable) : LockOp → JobLockTable
  | .insertOp holder now => (InsertJobLock tbl holder now).1
  | .pingOp holder iteration now => (PingJobLock tbl holder iteration now).1
  | .stealOp newHolder previousHolder iteration now =>
      (StealJobLock tbl newHolder previousHolder iteration now).1

/-- Apply a sequence of store operations, oldest first. -/
def applyLockOps (tbl : JobLockTable) (ops : List LockOp) : JobLockTable :=
  ops.foldl applyLockOp tbl

/-- One lock instance in the two-instance race model: its identity and
the `JobLock` fields the state machine mutates. -/
structure RaceInstance where
  identity : String
  st : JobLockState
  lastPing : Nat
  iteration : Int
deriving DecidableEq, Repr

/-- An acquisition cycle of one instance, as the `loop` performs it in
state `stateNone`: run `attemptAcquire` against the shared store with a
healthy transport, and on success move to `held` recording the returned
ping time and iteration. -/
def raceAcquire (staleAfter : Nat) (tbl : JobLockTable)
    (inst : RaceInstance) (now : Nat) : JobLockTable × RaceInstance :=
  let (tbl2, change) :=
    attemptAcquire inst.identity staleAfter tbl now AcquireEnv.quiet
      ⟨false, false⟩
  if change.Ok then
    (tbl2, { inst with st := JobLockState.held, lastPing := change.Ping,
                       iteration := change.Iteration })
  else (tbl2, inst)

/-- A ping cycle of one instance whose store round trip fails with a
transport error, as the `loop` performs it in state `held`: only runs
when the ping interval has elapsed, and applies `ping` with the
`storeError` outcome (the store itself is not reached, so the table is
unchanged). -/
def racePingError (cfg : JobLockConfig) (inst : RaceInstance) (now : Nat) :
    RaceInstance :=
  if now - inst.lastPing > cfg.pingInterval then
    let (pf, st) :=
      ping ⟨inst.lastPing, inst.iteration⟩ PingOutcome.storeError now
        cfg.staleAfter
    { inst with st := st, lastPing := pf.lastPing, iteration := pf.iteration }
  else inst

/-- Two lock instances with the same name sharing one store. -/
structure RaceWorld where
  tbl : JobLockTable
  a : RaceInstance
  b : RaceInstance
deriving DecidableEq, Repr

/-- A scheduled event in the two-instance race: which instance acts, at
which instant, and whether it is an acquisition cycle or a ping cycle
whose store round trip fails. -/
inductive RaceEvent where
  | acquireA (now : Nat)
  | acquireB (now : Nat)
  | pingErrA (now : Nat)
  | pingErrB (now : Nat)
deriving DecidableEq, Repr

/-- Apply one scheduled event to the shared world. -/
def raceStep (cfg : JobLockConfig) (w : RaceWorld) : RaceEvent → RaceWorld
  | .acquireA now =>
      let (tbl2, a2) := raceAcquire cfg.staleAfter w.tbl w.a now
      { w with tbl := tbl2, a := a2 }
  | .acquireB now =>
      let (tbl2, b2) := raceAcquire cfg.staleAfter w.tbl w.b now
      { w with tbl := tbl2, b := b2 }
  | .pingErrA now => { w with a := racePingError cfg w.a now }
  | .pingErrB now => { w with b := racePingError cfg w.b now }

/-- Run a schedule of race events, oldest first. -/
def raceRun (cfg : JobLockConfig) (w : RaceWorld) (events : List RaceEvent) :
    RaceWorld :=
  events.foldl (raceStep cfg) w

/-- A configuration with ping interval 10s and stale-after 40s (the
defaults, scaled to seconds for readability: the units are uniform). -/
def raceCfg : JobLockConfig := ⟨10, 40, 20, 5⟩

/-- The initial world: empty store, instances `A` and `B` idle. -/
def raceInit : RaceWorld :=
  ⟨Option.none, ⟨"A", JobLockState.stateNone, 0, 0⟩,
    ⟨"B", JobLockState.stateNone, 0, 0⟩⟩

/-- The overlap schedule: `A` acquires at instant 0; `A`'s renewal pings
at instants 11, 16, 21, 26, 31, 36 all fail with transport errors, each
within the stale grace period, so `A` stays `held`; at instant 40 the
row's `touched` (still 0) is `staleAfter` old, so `B` steals the lease
and becomes `held`. -/
def raceSchedule : List RaceEvent :=
  [.acquireA 0, .pingErrA 11, .pingErrA 16, .pingErrA 21, .pingErrA 26,
    .pingErrA 31, .pingErrA 36, .acquireB 40]

/-- The world at instant 40 after the overlap schedule. -/
def raceFinal : RaceWorld := raceRun raceCfg raceInit raceSchedule

/-! ## Theorems -/

/-- C9: `NewJobLock` applies defaults for any zero-valued option
(ping interval 10s, stale-after 4x ping interval, check interval 2x ping
interval, timeout ping interval / 2) and then fails construction with an
error if `staleAfter ≤ pingInterval` or `timeout ≥ pingInterval`;
otherwise it returns a lock configured with exactly these values. -/
theorem newJobLock_defaults_and_validation (opts : JobLockOptions) :
    (opts.pingInterval = 0 → (withDefaults opts).pingInterval = 10000) ∧
    (opts.staleAfter = 0 →
      (withDefaults opts).staleAfter = 4 * (withDefaults opts).pingInterval) ∧
    (opts.checkInterval = 0 →
      (withDefaults opts).checkInterval = 2 * (withDefaults opts).pingInterval) ∧
    (opts.timeout = 0 →
      (withDefaults opts).timeout = (withDefaults opts).pingInterval / 2) ∧
    ((withDefaults opts).staleAfter ≤ (withDefaults opts).pingInterval ∨
        (withDefaults opts).timeout ≥ (withDefaults opts).pingInterval →
      ∃ e, NewJobLock opts = .error e) ∧
    (¬((withDefaults opts).staleAfter ≤ (withDefaults opts).pingInterval ∨
        (withDefaults opts).timeout ≥ (withDefaults opts).pingInterval) →
      NewJobLock opts = .ok
        ⟨(withDefaults opts).pingInterval, (withDefaults opts).staleAfter,
          (withDefaults opts).checkInterval, (withDefaults opts).timeout⟩) := by
  refine ⟨?_, ?_, ?_, ?_, ?_, ?_⟩
  · intro h; simp [withDefaults, h]
  · intro h; simp [withDefaults, h, Nat.mul_comm]
  · intro h; simp [withDefaults, h, Nat.mul_comm]
  · intro h; simp [withDefaults, h]
  · intro h
    unfold NewJobLock
    rcases h with h | h
    · rw [if_pos h]
      exact ⟨_, rfl⟩
    · by_cases hp : (withDefaults opts).pingInterval ≥ (withDefaults opts).staleAfter
      · rw [if_pos hp]
        exact ⟨_, rfl⟩
      · rw [if_neg hp, if_pos h]
        exact ⟨_, rfl⟩
  · intro h
    push_neg at h
    unfold NewJobLock
    rw [if_neg (by omega), if_neg (by omega)]

/-- Witness for C9 at the all-defaults options. -/
theorem newJobLock_defaults_and_validation_witness :
    NewJobLock ⟨0, 0, 0, 0⟩ = .ok ⟨10000, 40000, 20000, 5000⟩ :=
  (newJobLock_defaults_and_validation ⟨0, 0, 0, 0⟩).2.2.2.2.2 (by decide)

/-- C4: for every ping attempt while held: zero affected rows forces
`lost` immediately; a store error keeps the lock `held` while the time
since the last successful ping does not exceed `staleAfter` and forces
`lost` once it does; success keeps the lock `held` with `lastPing`
refreshed to now and the iteration advanced by one. -/
theorem ping_state_transitions (jl : PingFields) (now staleAfter : Nat) :
    (ping jl (PingOutcome.updated 0) now staleAfter).2 = JobLockState.lost ∧
    (now - jl.lastPing ≤ staleAfter →
      (ping jl PingOutcome.storeError now staleAfter).2 =
        JobLockState.held) ∧
    (now - jl.lastPing > staleAfter →
      (ping jl PingOutcome.storeError now staleAfter).2 =
        JobLockState.lost) ∧
    (∀ rows, rows ≠ 0 →
      (ping jl (PingOutcome.updated rows) now staleAfter).2 =
          JobLockState.held ∧
        (ping jl (PingOutcome.updated rows) now staleAfter).1 =
          ⟨now, jl.iteration + 1⟩) := by
  refine ⟨rfl, ?_, ?_, ?_⟩
  · intro h
    unfold ping
    rw [if_neg (by omega)]
  · intro h
    unfold ping
    rw [if_pos h]
  · intro rows h
    match rows with
    | 0 => exact absurd rfl h
    | n + 1 => exact ⟨rfl, rfl⟩

/-- Witness for C4 at concrete inputs: a store error 5 after a last ping
at 0 with stale-after 40 keeps `held`; at 50 it is `lost`; one affected
row keeps `held`. -/
theorem ping_state_transitions_witness :
    (ping ⟨0, 1⟩ PingOutcome.storeError 5 40).2 = JobLockState.held ∧
    (ping ⟨0, 1⟩ PingOutcome.storeError 50 40).2 = JobLockState.lost ∧
    (ping ⟨0, 1⟩ (PingOutcome.updated 1) 5 40).2 = JobLockState.held :=
  ⟨(ping_state_transitions ⟨0, 1⟩ 5 40).2.1 (by decide),
    (ping_state_transitions ⟨0, 1⟩ 50 40).2.2.1 (by decide),
    ((ping_state_transitions ⟨0, 1⟩ 5 40).2.2.2 1 (by decide)).1⟩

/-- C10: a ping attempt that fails with a store error within the grace
period leaves `lastPing` and `iteration` unchanged; for any outcome the
fields either stay unchanged or the ping succeeded (nonzero affected
rows) and they become exactly `lastPing = now`, `iteration + 1`. -/
theorem ping_frame (jl : PingFields) (now staleAfter : Nat) :
    (now - jl.lastPing ≤ staleAfter →
      (ping jl PingOutcome.storeError now staleAfter).1 = jl) ∧
    ∀ outcome, (ping jl outcome now staleAfter).1 = jl ∨
      ((∃ rows, outcome = PingOutcome.updated (rows + 1)) ∧
        (ping jl outcome now staleAfter).1 = ⟨now, jl.iteration + 1⟩) := by
  constructor
  · intro _
    simp only [ping]
    split <;> rfl
  · intro outcome
    match outcome with
    | .storeError =>
        left
        simp only [ping]
        split <;> rfl
    | .updated 0 => exact Or.inl rfl
    | .updated (n + 1) => exact Or.inr ⟨⟨n, rfl⟩, rfl⟩

/-- Witness for C10: a store error at 5 with last ping 3 and stale-after
40 leaves the fields untouched. -/
theorem ping_frame_witness :
    (ping ⟨3, 7⟩ PingOutcome.storeError 5 40).1 = (⟨3, 7⟩ : PingFields) :=
  (ping_frame ⟨3, 7⟩ 5 40).1 (by decide)

/-- C6: the acquire-or-steal outcome mapping.  (i) no row: a row with
our identity and iteration 1 is inserted and the result is acquired;
(ii) a lost `job_lock_pkey` race is not-acquired without error; (iii) a
fresh row is not-acquired; (iv) a stale row leads to the steal guarded
by the observed holder and iteration; (v) zero affected rows on that
steal is the explicit `outOfSync` error; (vi) `attemptAcquire` converts
every `acquire` error into not-acquired with the store untouched;
(vii) a not-acquired cycle is not fatal: the loop continues. -/
theorem acquire_outcome_mapping (identity : String) (staleAfter now : Nat) :
    (acquire identity staleAfter Option.none now AcquireEnv.quiet =
      (some ⟨identity, now, 1⟩, .ok ⟨true, now, 1⟩)) ∧
    (acquire identity staleAfter Option.none now ⟨false, false, true, false⟩ =
      (Option.none, .ok ⟨false, 0, 0⟩)) ∧
    (∀ r : JobLockRow, now - r.touched < staleAfter →
      acquire identity staleAfter (some r) now AcquireEnv.quiet =
        (some r, .ok ⟨false, 0, 0⟩)) ∧
    (∀ r : JobLockRow, ¬ now - r.touched < staleAfter →
      acquire identity staleAfter (some r) now AcquireEnv.quiet =
        steal identity (some r) r now false) ∧
    (∀ (tbl : JobLockTable) (observed : JobLockRow),
      (StealJobLock tbl identity observed.holder observed.iteration now).2 =
          0 →
      (steal identity tbl observed now false).2 =
        .error AcquireError.outOfSync) ∧
    (∀ (tbl : JobLockTable) (env : AcquireEnv) (e : AcquireError),
      (acquire identity staleAfter tbl now env).2 = .error e →
      attemptAcquire identity staleAfter tbl now env ⟨false, false⟩ =
        (tbl, ⟨false, 0, 0⟩)) ∧
    (∀ (cfg : JobLockConfig) (s : LoopState) (env : LoopEnv),
      s.state = JobLockState.stateNone →
      s.nextState = JobLockState.stateNone →
      env.acquireOutcome.Ok = false → env.abortSignalled = false →
      (loopIter cfg s env).next = .ok s) := by
  refine ⟨rfl, rfl, ?_, ?_, ?_, ?_, ?_⟩
  · intro r h
    simp [acquire, AcquireEnv.quiet, h]
  · intro r h
    simp [acquire, AcquireEnv.quiet, h]
  · intro tbl observed h
    simp only [steal]
    rcases hs : StealJobLock tbl identity observed.holder observed.iteration
      now with ⟨tbl2, affected⟩
    rw [hs] at h
    simp only at h
    simp [h]
  · intro tbl env e h
    simp only [attemptAcquire, Bool.false_eq_true, if_false]
    rcases ha : acquire identity staleAfter tbl now env with ⟨tbl2, res⟩
    rw [ha] at h
    simp only at h
    rw [h]
  · intro cfg s env h1 h2 h3 h4
    rcases s with ⟨st, ns, lp, it⟩
    simp only at h1 h2
    subst h1
    subst h2
    simp [loopIter, loopDispatch, loopNotify, loopWait, h3, h4]

/-- Witness for C6 at concrete inputs: a fresh row blocks acquisition; a
stale row diverts to the steal; a mismatched observed row makes the
steal out-of-sync and `attemptAcquire` maps the error to not-acquired;
a not-acquired cycle leaves the loop running. -/
theorem acquire_outcome_mapping_witness :
    (acquire "me" 40 (some ⟨"other", 30, 3⟩) 50 AcquireEnv.quiet =
      (some ⟨"other", 30, 3⟩, .ok ⟨false, 0, 0⟩)) ∧
    (acquire "me" 40 (some ⟨"other", 0, 3⟩) 50 AcquireEnv.quiet =
      steal "me" (some ⟨"other", 0, 3⟩) ⟨"other", 0, 3⟩ 50 false) ∧
    ((steal "me" (some ⟨"other", 0, 4⟩) ⟨"other", 0, 3⟩ 50 false).2 =
      .error AcquireError.outOfSync) ∧
    (attemptAcquire "me" 40 (some ⟨"other", 0, 4⟩) 50
        ⟨true, false, false, false⟩ ⟨false, false⟩ =
      (some ⟨"other", 0, 4⟩, ⟨false, 0, 0⟩)) ∧
    ((loopIter ⟨10, 40, 20, 5⟩ ⟨JobLockState.stateNone,
        JobLockState.stateNone, 0, 0⟩
        ⟨0, ⟨false, 0, 0⟩, PingOutcome.storeError, true, false⟩).next =
      .ok ⟨JobLockState.stateNone, JobLockState.stateNone, 0, 0⟩) :=
  ⟨(acquire_outcome_mapping "me" 40 50).2.2.1 ⟨"other", 30, 3⟩ (by decide),
    (acquire_outcome_mapping "me" 40 50).2.2.2.1 ⟨"other", 0, 3⟩ (by decide),
    (acquire_outcome_mapping "me" 40 50).2.2.2.2.1 (some ⟨"other", 0, 4⟩)
      ⟨"other", 0, 3⟩ (by decide),
    (acquire_outcome_mapping "me" 40 50).2.2.2.2.2.1 (some ⟨"other", 0, 4⟩)
      ⟨true, false, false, false⟩ AcquireError.readFailed rfl,
    (acquire_outcome_mapping "me" 40 50).2.2.2.2.2.2 ⟨10, 40, 20, 5⟩
      ⟨JobLockState.stateNone, JobLockState.stateNone, 0, 0⟩
      ⟨0, ⟨false, 0, 0⟩, PingOutcome.storeError, true, false⟩
      rfl rfl rfl rfl⟩

/-- One insert, ping or steal keeps a row present and never lowers its
iteration. -/
theorem applyLockOp_iteration_mono (tbl : JobLockTable) (op : LockOp)
    (r : JobLockRow) (h : tbl = some r) :
    ∃ r2, applyLockOp tbl op = some r2 ∧ r.iteration ≤ r2.iteration := by
  subst h
  match op with
  | .insertOp holder now =>
      exact ⟨r, rfl, le_refl _⟩
  | .pingOp holder iteration now =>
      simp only [applyLockOp, PingJobLock]
      split
      · exact ⟨_, rfl, by simp⟩
      · exact ⟨r, rfl, le_refl _⟩
  | .stealOp newHolder previousHolder iteration now =>
      simp only [applyLockOp, StealJobLock]
      split
      · exact ⟨_, rfl, by simp⟩
      · exact ⟨r, rfl, le_refl _⟩

/-- Iterated version of `applyLockOp_iteration_mono`. -/
theorem applyLockOps_iteration_mono (ops : List LockOp) (tbl : JobLockTable)
    (r : JobLockRow) (h : tbl = some r) :
    ∃ r2, applyLockOps tbl ops = some r2 ∧ r.iteration ≤ r2.iteration := by
  induction ops generalizing tbl r with
  | nil => exact ⟨r, by simp [applyLockOps, h], le_refl _⟩
  | cons op rest ih =>
      obtain ⟨r1, h1, hle1⟩ := applyLockOp_iteration_mono tbl op r h
      obtain ⟨r2, h2, hle2⟩ := ih (applyLockOp tbl op) r1 h1
      refine ⟨r2, ?_, le_trans hle1 hle2⟩
      simpa [applyLockOps] using h2

/-- C5: across any sequence of insert, ping and steal store operations
(each SQL statement is atomic, so any concurrent interleaving is such a
sequence), a row's iteration never decreases; an insert into an empty
table sets it to 1; a ping or steal affects a row only when the caller
presents the row's current iteration, and then increments it by exactly
one. -/
theorem joblock_iteration_fencing (ops : List LockOp) (tbl : JobLockTable)
    (r : JobLockRow) :
    (tbl = some r → ∃ r2, applyLockOps tbl ops = some r2 ∧
      r.iteration ≤ r2.iteration) ∧
    (∀ holder now, InsertJobLock Option.none holder now =
      (some ⟨holder, now, 1⟩, .inserted 1)) ∧
    (∀ holder iteration now,
      (PingJobLock (some r) holder iteration now).2 ≠ 0 →
      r.holder = holder ∧ r.iteration = iteration ∧
      (PingJobLock (some r) holder iteration now).1 =
        some ⟨r.holder, now, r.iteration + 1⟩) ∧
    (∀ newHolder previousHolder iteration now,
      (StealJobLock (some r) newHolder previousHolder iteration now).2 ≠ 0 →
      r.holder = previousHolder ∧ r.iteration = iteration ∧
      (StealJobLock (some r) newHolder previousHolder iteration now).1 =
        some ⟨newHolder, now, r.iteration + 1⟩) := by
  refine ⟨applyLockOps_iteration_mono ops tbl r, fun _ _ => rfl, ?_, ?_⟩
  · intro holder iteration now h
    simp only [PingJobLock] at h ⊢
    split at h
    · rename_i hc
      simp_all [PingJobLock]
    · simp at h
  · intro newHolder previousHolder iteration now h
    simp only [StealJobLock] at h ⊢
    split at h
    · rename_i hc
      simp_all [StealJobLock]
    · simp at h

/-- Witness for C5 at a concrete history: starting from a row with
iteration 1 and applying a successful ping and then a steal, the
iteration never decreases; the guard facts hold at the same row. -/
theorem joblock_iteration_fencing_witness :
    (∃ r2, applyLockOps (some ⟨"a", 0, 1⟩)
        [.pingOp "a" 1 5, .stealOp "b" "a" 2 60] = some r2 ∧
      (1 : Int) ≤ r2.iteration) ∧
    ((⟨"a", 0, 1⟩ : JobLockRow).holder = "a" ∧
      (⟨"a", 0, 1⟩ : JobLockRow).iteration = 1 ∧
      (PingJobLock (some ⟨"a", 0, 1⟩) "a" 1 5).1 = some ⟨"a", 5, 2⟩) :=
  ⟨(joblock_iteration_fencing [.pingOp "a" 1 5, .stealOp "b" "a" 2 60]
      (some ⟨"a", 0, 1⟩) ⟨"a", 0, 1⟩).1 rfl,
    (joblock_iteration_fencing [] (some ⟨"a", 0, 1⟩) ⟨"a", 0, 1⟩).2.2.1
      "a" 1 5 (by decide)⟩

/-- The wait step never produces the `channelFull` exit. -/
theorem loopWait_not_channelFull (s : LoopState) (env : LoopEnv)
    (ops : List StoreOp) (sends : List JobLockState) (sEnd : LoopState) :
    (loopWait s env ops sends).next ≠ .error (.channelFull, sEnd) := by
  unfold loopWait
  split
  · simp
  · split <;> simp

/-- The `channelFull` exit arises exactly from the failed offer: the
channel was not free, the iteration logged the abort line, sent nothing,
and kept only the dispatch's store round trips. -/
theorem loopNotify_channelFull_shape (s1 : LoopState) (ops1 : List StoreOp)
    (env : LoopEnv) (sEnd : LoopState)
    (h : (loopNotify s1 ops1 env).next = .error (.channelFull, sEnd)) :
    env.channelFree = false ∧
    (loopNotify s1 ops1 env).logs =
      ["state change channel buffer is full, aborting"] ∧
    (loopNotify s1 ops1 env).sends = [] ∧
    (loopNotify s1 ops1 env).ops = ops1 := by
  unfold loopNotify at h ⊢
  split at h
  · split at h
    · exact absurd h (loopWait_not_channelFull _ _ _ _ _)
    · rename_i hne hcf
      rw [if_pos hne, if_neg hcf]
      simp only [Bool.not_eq_true] at hcf
      exact ⟨hcf, rfl, rfl, rfl⟩
  · exact absurd h (loopWait_not_channelFull _ _ _ _ _)

/-- Same characterization lifted to a whole iteration. -/
theorem loopIter_channelFull_shape (cfg : JobLockConfig) (s : LoopState)
    (env : LoopEnv) (sEnd : LoopState)
    (h : (loopIter cfg s env).next = .error (.channelFull, sEnd)) :
    env.channelFree = false ∧
    (loopIter cfg s env).logs =
      ["state change channel buffer is full, aborting"] ∧
    (loopIter cfg s env).sends = [] := by
  rcases s with ⟨st, ns, lp, it⟩
  cases st with
  | released => exact absurd h (by simp [loopIter])
  | stateNone =>
      obtain ⟨a, b, c, _⟩ := loopNotify_channelFull_shape _ _ env sEnd h
      exact ⟨a, b, c⟩
  | held =>
      obtain ⟨a, b, c, _⟩ := loopNotify_channelFull_shape _ _ env sEnd h
      exact ⟨a, b, c⟩
  | lost =>
      obtain ⟨a, b, c, _⟩ := loopNotify_channelFull_shape _ _ env sEnd h
      exact ⟨a, b, c⟩

/-- C3: when a state change cannot be delivered because the capacity-one
channel still holds an undrained value, the loop logs the condition and
exits at once with the `channelFull` exit, sending nothing further; the
whole remaining run issues exactly the failing iteration's store round
trips plus the single deferred best-effort release, independent of any
further scheduled environment — no further store operations come from
this instance. -/
theorem loop_channel_full_fatal (cfg : JobLockConfig) (s : LoopState)
    (env : LoopEnv) (sEnd : LoopState) (rest : List LoopEnv)
    (h : (loopIter cfg s env).next = .error (.channelFull, sEnd)) :
    env.channelFree = false ∧
    "state change channel buffer is full, aborting" ∈
      (loopIter cfg s env).logs ∧
    (loopIter cfg s env).sends = [] ∧
    loopRun cfg (env :: rest) s =
      ((loopIter cfg s env).ops ++ releaseStoreOps sEnd.state,
        (loopIter cfg s env).logs, some LoopExit.channelFull) := by
  obtain ⟨hcf, hlogs, hsends⟩ := loopIter_channelFull_shape cfg s env sEnd h
  refine ⟨hcf, by rw [hlogs]; exact List.mem_singleton.mpr rfl, hsends, ?_⟩
  simp only [loopRun]
  rw [h]

/-- Witness for C3: a held lock whose ping reports zero affected rows
changes state to `lost` while the consumer has not drained the channel;
the iteration exits `channelFull` after issuing only its ping round
trip, and the run ends there despite ten more scheduled cycles (no
release delete: the state at exit is `lost`, not `held`). -/
theorem loop_channel_full_fatal_witness :
    loopRun ⟨10, 40, 20, 5⟩
        (⟨20, ⟨false, 0, 0⟩, PingOutcome.updated 0, false, false⟩ ::
          List.replicate 10
            ⟨100, ⟨false, 0, 0⟩, PingOutcome.updated 0, true, false⟩)
        ⟨JobLockState.held, JobLockState.held, 0, 1⟩ =
      ([StoreOp.pingAttempt],
        ["state change channel buffer is full, aborting"],
        some LoopExit.channelFull) := by
  have h := loop_channel_full_fatal ⟨10, 40, 20, 5⟩
    ⟨JobLockState.held, JobLockState.held, 0, 1⟩
    ⟨20, ⟨false, 0, 0⟩, PingOutcome.updated 0, false, false⟩
    ⟨JobLockState.lost, JobLockState.lost, 0, 1⟩
    (List.replicate 10
      ⟨100, ⟨false, 0, 0⟩, PingOutcome.updated 0, true, false⟩)
    rfl
  exact h.2.2.2

/-- C8: `RunWithContext` returns only the protected function's own
result or nil; whenever the derived scope is cancelled (abort signal,
caller's context, or an observed lost/released transition) before a
`held` state is observed, the protected function is never invoked and
the return value is nil. -/
theorem runWithContext_returns (events : List RwcEvent)
    (fnResult : Option String) (res : Option String) (invoked : Bool)
    (h : RunWithContext events fnResult = some (res, invoked)) :
    (res = fnResult ∧ invoked = true ∨ res = Option.none ∧ invoked = false) ∧
    (watcherOutcome events = some false →
      res = Option.none ∧ invoked = false) := by
  unfold RunWithContext at h
  rcases hw : watcherOutcome events with _ | b
  · rw [hw] at h
    cases h
  · rw [hw] at h
    cases b
    · simp only [Option.some.injEq, Prod.mk.injEq] at h
      exact ⟨Or.inr ⟨h.1.symm, h.2.symm⟩, fun _ => ⟨h.1.symm, h.2.symm⟩⟩
    · simp only [Option.some.injEq, Prod.mk.injEq] at h
      refine ⟨Or.inl ⟨h.1.symm, h.2.symm⟩, fun hfalse => ?_⟩
      simp_all

/-- Witness for C8: the caller's context is cancelled before any state
arrives, so the call returns nil without invoking the function. -/
theorem runWithContext_returns_witness :
    ((Option.none : Option String) = some "boom" ∧ false = true ∨
      (Option.none : Option String) = Option.none ∧ false = false) ∧
    (watcherOutcome [RwcEvent.ctxDone] = some false →
      (Option.none : Option String) = Option.none ∧ false = false) :=
  runWithContext_returns [RwcEvent.ctxDone] (some "boom") Option.none false
    rfl

/-- C1 counterexample: after the overlap schedule — instance `A`
acquires at instant 0, its renewal pings at instants 11 through 36 fail
with store errors inside the stale grace period, and instance `B` steals
the stale lease at instant 40 — both instances observe `held` at instant
40, so the two `held` intervals overlap. -/
theorem held_overlap_counterexample :
    raceFinal.a.st = JobLockState.held ∧
    raceFinal.b.st = JobLockState.held := by decide

/-- C1 amended: while the store lease is fresh (`now - touched <
staleAfter`), no other instance's acquisition cycle can succeed or touch
the store, so a second `held` observation can only begin once the
current holder's lease has gone unrenewed for `staleAfter`. -/
theorem fresh_lease_blocks_second_acquire (identity : String)
    (staleAfter : Nat) (tbl : JobLockTable) (r : JobLockRow) (now : Nat)
    (env : AcquireEnv) (tx : TxEnv) (hr : tbl = some r)
    (hfresh : now - r.touched < staleAfter) :
    (attemptAcquire identity staleAfter tbl now env tx).2.Ok = false ∧
    (attemptAcquire identity staleAfter tbl now env tx).1 = tbl := by
  subst hr
  rcases tx with ⟨tb, tc⟩
  rcases env with ⟨ge, ie, ir, se⟩
  cases tb <;> cases ge <;>
    simp [attemptAcquire, acquire, hfresh]

/-- Witness for C1's amended statement: with a row touched at 30 and
stale-after 40, an acquisition attempt at instant 50 by another identity
fails and leaves the store unchanged. -/
theorem fresh_lease_blocks_second_acquire_witness :
    (attemptAcquire "B" 40 (some ⟨"A", 30, 3⟩) 50 AcquireEnv.quiet
        ⟨false, false⟩).2.Ok = false ∧
    (attemptAcquire "B" 40 (some ⟨"A", 30, 3⟩) 50 AcquireEnv.quiet
        ⟨false, false⟩).1 = some ⟨"A", 30, 3⟩ :=
  fresh_lease_blocks_second_acquire "B" 40 (some ⟨"A", 30, 3⟩) ⟨"A", 30, 3⟩
    50 AcquireEnv.quiet ⟨false, false⟩ rfl (by decide)

/-- C2: evaluating the code at the failing input — `Stop` runs
`close(jl.abort)` with no once-guard, so the second of two calls closes
an already-closed channel, which is a Go run-time panic, contradicting
the claim that calling `Stop` multiple times is always safe. -/
theorem stop_twice_panics :
    stopTwice = .error "close of closed channel" := rfl

/-- C7 counterexample: `Stop` itself performs the bounded cleanup wait
(its action list contains the wait), while the calling path of
`RunWithContext` performs no bounded wait before returning — the
opposite of the claimed split. -/
theorem stop_wait_location_counterexample :
    LockAction.boundedWaitCleanup 5 ∈ StopActions 5 ∧
    LockAction.boundedWaitCleanup 5 ∉ RunWithContextMainActions true := by
  decide

/-- C7 amended: `Stop` signals by closing `abort` and then itself waits,
bounded by `timeout`, for the cleanup signal; the calling path of
`RunWithContext` never performs that bounded wait — after the protected
scope ends, the watcher goroutine runs its deferred `cancel()` and then
`Stop` (which contains the bounded wait) asynchronously, so
`RunWithContext` can return to its caller before cleanup completes. -/
theorem stop_blocking_runWithContext_async (timeout : Nat)
    (acquired : Bool) :
    StopActions timeout =
      [LockAction.closeAbortChan, LockAction.boundedWaitCleanup timeout] ∧
    (∀ t, LockAction.boundedWaitCleanup t ∉
      RunWithContextMainActions acquired) ∧
    watcherDeferredActions timeout =
      [LockAction.cancelScope, LockAction.closeAbortChan,
        LockAction.boundedWaitCleanup timeout] := by
  refine ⟨rfl, ?_, rfl⟩
  intro t
  cases acquired <;> simp [RunWithContextMainActions]

end Elephantine.PG
